import Mathlib

/-!
# Verification of the TrendRadar report-to-document renderer

This development embeds the core of `mcp_server/tools/deepseek_client.py`:

* the line-oriented Markdown block parser `md_to_html` (lines 180-264),
  modelled at the block level (`Block`, `step`, `md_to_html_blocks`);
* the client-side card-ification passes that `generate_ai_html_from_md`
  emits as JavaScript (lines 335-504), modelled as transformations over a
  flat sequence of rendered nodes (`Node`, `pass1` .. `pass5`, `cardify`);
* the response handling of `call_deepseek` (lines 88-92), modelled over a
  JSON value type (`Json`, `extractContent`, `call_deepseek_result`).

Lines of text are modelled as `List Char`; Python/JS string helpers
(`strip`, `split`, `replace`, `startsWith`, regex prefix tests) are
embedded as explicit recursive functions below.
-/

namespace TrendRadar

/-! ## String primitives (Python `str.strip`, `split`, `replace`, prefix tests) -/

/-- Whitespace characters recognised by Python `str.strip()` / JS `trim()`
(space, tab, newline, carriage return, vertical tab, form feed). -/
def wsChar (c : Char) : Bool :=
  c == ' ' || c == '\t' || c == '\n' || c == '\r' || c == '\x0b' || c == '\x0c'

/-- Python `s.strip()`: drop leading and trailing whitespace. -/
def pyStrip (l : List Char) : List Char :=
  ((l.dropWhile wsChar).reverse.dropWhile wsChar).reverse

/-- Python `s.strip("|")`: drop leading and trailing pipe characters. -/
def stripPipes (l : List Char) : List Char :=
  ((l.dropWhile (· == '|')).reverse.dropWhile (· == '|')).reverse

/-- Python `s.replace("**", "")`: delete every occurrence of the two-character
sequence `**`, scanning left to right. -/
def removeBold : List Char → List Char
  | '*' :: '*' :: rest => removeBold rest
  | c :: rest => c :: removeBold rest
  | [] => []

/-- Boolean list-prefix test (Python `str.startswith`, JS `/^pat/` tests). -/
def isPre : List Char → List Char → Bool
  | [], _ => true
  | _ :: _, [] => false
  | a :: as_, b :: bs => a == b && isPre as_ bs

/-- Split on a separator character, Python `s.split(sep)` (never returns `[]`). -/
def splitOnChar (sep : Char) : List Char → List (List Char)
  | [] => [[]]
  | c :: rest =>
    if c == sep then [] :: splitOnChar sep rest
    else
      match splitOnChar sep rest with
      | s :: ss => (c :: s) :: ss
      | [] => [[c]]

/-- Substring test (JS `/pat/.test(s)`). -/
def containsSub (pat : List Char) : List Char → Bool
  | [] => isPre pat []
  | c :: rest => isPre pat (c :: rest) || containsSub pat rest

/-- Concatenation of a list of lists (used for block contents). -/
def concatAll : List (List α) → List α
  | [] => []
  | x :: xs => x ++ concatAll xs

/-- Character list of a string literal. -/
def lchars (s : String) : List Char := s.data

/-! ## Block parser (`md_to_html`, deepseek_client.py lines 180-264)

The Python function accumulates HTML strings in `out`; each `out.append`
corresponds 1:1 to one `Block` below, keeping the structured form
(heading text, list items, table header/body rows) instead of the final
HTML string. -/

/-- One emitted block of `md_to_html`. -/
inductive Block where
  | h3 (text : List Char)
  | h4 (text : List Char)
  | table (header : List (List Char)) (body : List (List (List Char)))
  | hrule
  | ulist (items : List (List Char))
  | para (text : List Char)
  deriving DecidableEq

/-- Parser state: the `out` list plus the two aggregation buffers
(`in_list`/`list_items`, `in_table`/`table_lines`). -/
structure PState where
  out : List Block
  inList : Bool
  listItems : List (List Char)
  inTable : Bool
  tableLines : List (List Char)
  deriving DecidableEq

def initState : PState := ⟨[], false, [], false, []⟩

/-- `flush_list` (lines 188-196). -/
def flush_list (st : PState) : PState :=
  if st.inList ∧ st.listItems ≠ [] then
    ⟨st.out ++ [Block.ulist st.listItems], false, [], st.inTable, st.tableLines⟩
  else
    ⟨st.out, false, [], st.inTable, st.tableLines⟩

/-- One table row: `[c.strip() for c in tline.strip().strip("|").split("|")]`
(line 204). -/
def cells (tline : List Char) : List (List Char) :=
  (splitOnChar '|' (stripPipes (pyStrip tline))).map pyStrip

/-- A cell consisting only of dashes (possibly none):
`re.fullmatch(r"-+", c) or c == ""` (line 209). -/
def dashCell (c : List Char) : Bool := c.all (· == '-')

/-- A separator row: every cell dash-only or empty (line 209). -/
def allDashRow (r : List (List Char)) : Bool := r.all dashCell

/-- `flush_table` (lines 198-216): first aggregated row is the header, the
second row is dropped iff it is a separator row. -/
def flush_table (st : PState) : PState :=
  if st.inTable ∧ st.tableLines ≠ [] then
    let rows := st.tableLines.map cells
    let header := rows.headD []
    let body :=
      match rows.tail with
      | r :: rest => if allDashRow r then rest else r :: rest
      | [] => []
    ⟨st.out ++ [Block.table header body], st.inList, st.listItems, false, []⟩
  else
    ⟨st.out, st.inList, st.listItems, false, []⟩

/-- Processing of one (already stripped) line, mirroring the body of the
`for raw in lines` loop (lines 218-261). -/
def stepCore (st : PState) (stripped : List Char) : PState :=
  if isPre (lchars "### ") stripped then
    let st1 := flush_table (flush_list st)
    { st1 with out := st1.out ++ [Block.h3 (pyStrip (stripped.drop 4))] }
  else if isPre (lchars "#### ") stripped then
    let st1 := flush_table (flush_list st)
    { st1 with out := st1.out ++ [Block.h4 (pyStrip (stripped.drop 5))] }
  else if isPre (lchars "|") stripped then
    let st1 := flush_list st
    { st1 with inTable := true, tableLines := st1.tableLines ++ [stripped] }
  else
    let st1 := if st.inTable then flush_table st else st
    if stripped = lchars "---" then
      let st2 := flush_list st1
      { st2 with out := st2.out ++ [Block.hrule] }
    else if isPre (lchars "- ") stripped then
      { st1 with inList := true,
                 listItems := st1.listItems ++ [pyStrip (removeBold (stripped.drop 2))] }
    else
      let st2 := flush_list st1
      if stripped ≠ [] then
        { st2 with out := st2.out ++ [Block.para (removeBold stripped)] }
      else st2

/-- One loop iteration on a raw line: `line = raw.rstrip(); stripped = line.strip()`
followed by the classification (lines 218-261). -/
def step (st : PState) (raw : List Char) : PState :=
  stepCore st (pyStrip raw)

/-- The trailing `flush_list(); flush_table()` (line 263). -/
def finishState (st : PState) : PState := flush_table (flush_list st)

/-- The block sequence produced by `md_to_html` on a list of input lines. -/
def md_to_html_blocks (lines : List (List Char)) : List Block :=
  (finishState (lines.foldl step initState)).out

/-! ## Block text content -/

/-- The text pieces carried by one block, in reading order. -/
def blockContent : Block → List (List Char)
  | Block.h3 t => [t]
  | Block.h4 t => [t]
  | Block.table header body => header ++ concatAll body
  | Block.hrule => []
  | Block.ulist items => items
  | Block.para t => [t]

/-- Concatenated text content of a block sequence. -/
def blocksContent (bs : List Block) : List (List Char) :=
  concatAll (bs.map blockContent)

/-- Modelled from the spec: the text content one stripped input line carries
once the recognized markup is removed (heading prefixes, table pipes, list
markers, the `---` rule line, `**` bold markers); the enumeration of claim C4.
A blank line carries nothing. -/
def lineContent (stripped : List Char) : List (List Char) :=
  if isPre (lchars "### ") stripped then [pyStrip (stripped.drop 4)]
  else if isPre (lchars "#### ") stripped then [pyStrip (stripped.drop 5)]
  else if isPre (lchars "|") stripped then cells stripped
  else if stripped = lchars "---" then []
  else if isPre (lchars "- ") stripped then [pyStrip (removeBold (stripped.drop 2))]
  else if stripped ≠ [] then [removeBold stripped]
  else []

/-- Per-line reading of claim C4 as stated: the non-blank lines' contents,
in order, with the enumerated markup stripped line by line. -/
def lineContentsAll (lines : List (List Char)) : List (List Char) :=
  concatAll (lines.map (fun l => lineContent (pyStrip l)))

/-- Modelled from the spec (amended claim C4): content of one maximal run of
table lines — the separator second row (all-dash or empty cells) is also
stripped markup. -/
def refFlush : List (List (List Char)) → List (List Char)
  | [] => []
  | r0 :: rest =>
    r0 ++ (match rest with
           | r1 :: rest2 => if allDashRow r1 then concatAll rest2 else concatAll (r1 :: rest2)
           | [] => [])

/-- Modelled from the spec (amended claim C4): reference content of the
input, grouping maximal runs of table lines and stripping each run's
separator second row, all other lines contributing `lineContent`. -/
def refContentGo (pend : List (List (List Char))) : List (List Char) → List (List Char)
  | [] => refFlush pend
  | l :: ls =>
    let s := pyStrip l
    if isPre (lchars "|") s then refContentGo (pend ++ [cells s]) ls
    else refFlush pend ++ lineContent s ++ refContentGo [] ls

/-- Reference content of a whole input. -/
def refContent (lines : List (List Char)) : List (List Char) :=
  refContentGo [] lines

/-! ## Rendered nodes and cards

The card-ification engine is the `DOMContentLoaded` script emitted by
`generate_ai_html_from_md` (deepseek_client.py lines 335-504).  The
`.markdown` container holds one element per block; cards and card
containers (`div.section`) are the only elements the script inserts. -/

/-- Body of a market-review card: the consumed following sibling
(a list, or a paragraph, or nothing). -/
inductive ReviewBody where
  | ulBody (items : List (List Char))
  | pBody (text : List Char)
  deriving DecidableEq

/-- A card, one constructor per card template in the script. -/
inductive RCard where
  /-- Priority-item card (lines 346-363 and 426-449): title, urgency,
  confidence, reason, suggestion, as extracted (empty = absent). -/
  | pri (title urgency confidence reason suggest : List Char)
  /-- Thematic-section card (lines 374-377): title and the untouched list. -/
  | sectCard (title : List Char) (items : List (List Char))
  /-- Event-table row card (lines 392-408): event, date, view, effect,
  sector, advice. -/
  | eventCard (evt date view effect sector adv : List Char)
  /-- Market-review card (lines 476-488): fixed key as title plus the
  consumed body. -/
  | review (title : List Char) (body : Option ReviewBody)
  deriving DecidableEq

/-- A rendered node of the document body. -/
inductive Node where
  | h3 (text : List Char)
  | h4 (text : List Char)
  | ulist (items : List (List Char))
  | tbl (header : List (List Char)) (rows : List (List (List Char)))
  | hrule
  | p (text : List Char)
  | card (c : RCard)
  | cardSection (cs : List RCard)
  deriving DecidableEq

/-- The Block Renderer: one block, one node (spec §4.2). -/
def blockToNode : Block → Node
  | Block.h3 t => Node.h3 t
  | Block.h4 t => Node.h4 t
  | Block.table h b => Node.tbl h b
  | Block.hrule => Node.hrule
  | Block.ulist items => Node.ulist items
  | Block.para t => Node.p t

def renderNodes (bs : List Block) : List Node := bs.map blockToNode

/-! ## Card-ification passes -/

/-- `priorityLabels` (line 339). -/
def priorityLabels : List (List Char) :=
  [lchars "高优先级事项：", lchars "中优先级事项：", lchars "低优先级事项："]

/-- `cardSectionTitles` (line 368). -/
def sectionLabels : List (List Char) :=
  [lchars "宏观层面：", lchars "行业层面：", lchars "个股层面：", lchars "布局建议：",
   lchars "主要风险：", lchars "对冲建议：", lchars "宏观影响：", lchars "行业影响：",
   lchars "个股影响："]

/-- JS `t.replace(/^LABEL\s*：?/, '')` where `t` starts with `label`:
drop the label, any whitespace, and at most one full-width colon. -/
def stripLabelColon (label t : List Char) : List Char :=
  if isPre label t then
    let r := (t.drop label.length).dropWhile wsChar
    match r with
    | '：' :: r2 => r2
    | _ => r
  else t

/-- JS `t.split('：')[1]?.trim()` (empty when there is no second segment). -/
def afterColonSeg (t : List Char) : List Char :=
  match splitOnChar '：' t with
  | _ :: s :: _ => pyStrip s
  | _ => []

/-- JS `t.split('：')[1]?.trim() || t.replace(/^LABEL\s*：?/, '').trim()`:
the segment after the first full-width colon, falling back to stripping the
label when that segment is empty or absent. -/
def extractAfterLabel (label t : List Char) : List Char :=
  let v := afterColonSeg t
  if v ≠ [] then v else pyStrip (stripLabelColon label t)

/-- Mutable field set of a priority card during extraction. -/
structure PriFields where
  title : List Char
  urgency : List Char
  confidence : List Char
  reason : List Char
  suggest : List Char
  deriving DecidableEq

def emptyPriFields : PriFields := ⟨[], [], [], [], []⟩

def PriFields.toCard (f : PriFields) : RCard :=
  RCard.pri f.title f.urgency f.confidence f.reason f.suggest

/-- `items.forEach` of the first priority pass (lines 347-353): each trimmed
item may overwrite one field, all five extracted with split-or-strip. -/
def priItemStep (f : PriFields) (t : List Char) : PriFields :=
  if isPre (lchars "标题") t then { f with title := extractAfterLabel (lchars "标题") t }
  else if isPre (lchars "原因") t then { f with reason := extractAfterLabel (lchars "原因") t }
  else if isPre (lchars "紧迫度") t then { f with urgency := extractAfterLabel (lchars "紧迫度") t }
  else if isPre (lchars "置信度") t then { f with confidence := extractAfterLabel (lchars "置信度") t }
  else if isPre (lchars "执行建议") t then { f with suggest := extractAfterLabel (lchars "执行建议") t }
  else f

/-- Card built by the first pass from the items of the matched list. -/
def mkPriCardFromItems (items : List (List Char)) : RCard :=
  ((items.map pyStrip).foldl priItemStep emptyPriFields).toCard

/-- Pass 1 (lines 340-367): a paragraph whose trimmed text is one of
`priorityLabels`, immediately followed by a list, is consumed together with
the list and replaced by one priority card at the list's position. -/
def pass1 : List Node → List Node
  | Node.p t :: Node.ulist items :: rest =>
    if pyStrip t ∈ priorityLabels then
      Node.card (mkPriCardFromItems items) :: pass1 rest
    else
      Node.p t :: pass1 (Node.ulist items :: rest)
  | n :: rest => n :: pass1 rest
  | [] => []

/-- `text.replace(/：$/, '')` (line 375). -/
def dropTrailingColon (t : List Char) : List Char :=
  match t.reverse with
  | '：' :: r => r.reverse
  | _ => t

/-- Pass 2 (lines 368-381): a paragraph whose trimmed text is one of the nine
`sectionLabels`, immediately followed by a list, is replaced together with
the list by one section card keeping the list untouched. -/
def pass2 : List Node → List Node
  | Node.p t :: Node.ulist items :: rest =>
    if pyStrip t ∈ sectionLabels then
      Node.card (RCard.sectCard (dropTrailingColon (pyStrip t)) items) :: pass2 rest
    else
      Node.p t :: pass2 (Node.ulist items :: rest)
  | n :: rest => n :: pass2 rest
  | [] => []

/-- Index of the last header equal to `name` (later duplicate headers
overwrite in `map[h] = cells[i] || ''`, line 391). -/
def lastHeaderIdx (headers : List (List Char)) (name : List Char) : Option Nat :=
  (List.range headers.length).reverse.find? (fun i => headers.getD i [] == name)

/-- `map[name]`: the cell under the last header named `name`, `[]` when the
header is absent or the row is too short (`cells[i] || ''`). -/
def headerLookup (headers cellsRow : List (List Char)) (name : List Char) : List Char :=
  match lastHeaderIdx headers name with
  | some i => cellsRow.getD i []
  | none => []

/-- JS `a || b` on strings: `b` when `a` is empty. -/
def orElseStr (a b : List Char) : List Char := if a ≠ [] then a else b

/-- One row card of the event-table pass (lines 389-409): per output field an
ordered synonym lookup over the headers with a positional fallback. -/
def mkEventCard (headers row : List (List Char)) : RCard :=
  let hs := headers.map pyStrip
  let cs := row.map pyStrip
  let lk := headerLookup hs cs
  let at_ := fun i => cs.getD i []
  RCard.eventCard
    (orElseStr (lk (lchars "事件")) (orElseStr (lk (lchars "事件名称"))
      (orElseStr (at_ 0) (lchars "事件"))))
    (orElseStr (lk (lchars "日期")) (orElseStr (lk (lchars "日期/窗口"))
      (orElseStr (lk (lchars "时间窗口")) (at_ 1))))
    (orElseStr (lk (lchars "观点")) (orElseStr (lk (lchars "前瞻观点")) (at_ 2)))
    (orElseStr (lk (lchars "影响")) (orElseStr (lk (lchars "市场影响")) (at_ 3)))
    (orElseStr (lk (lchars "板块与标的")) (at_ 4))
    (orElseStr (lk (lchars "建议")) (orElseStr (lk (lchars "建议与对冲")) (at_ 5)))

/-- Pass 3 (lines 382-413): the first table node only is replaced by a
section of one card per body row; later tables are untouched. -/
def pass3 : List Node → List Node
  | Node.tbl headers rows :: rest =>
    Node.cardSection (rows.map (mkEventCard headers)) :: rest
  | n :: rest => n :: pass3 rest
  | [] => []

def isH3 : Node → Bool
  | Node.h3 _ => true
  | _ => false

/-- Anchor of the priority scan: an `h3` whose text contains `优先级` (line 415). -/
def isPriH3 : Node → Bool
  | Node.h3 t => containsSub (lchars "优先级") t
  | _ => false

/-- Anchor of the market-review scan: an `h3` whose text contains `大盘复盘`
(line 465). -/
def isRevH3 : Node → Bool
  | Node.h3 t => containsSub (lchars "大盘复盘") t
  | _ => false

/-- Field extraction of the priority walk's inner loop (lines 428-435): only
paragraph nodes are inspected, labels matched as prefixes, values by
label-stripping; later matches overwrite. -/
def priWalkExtract (f : PriFields) : Node → PriFields
  | Node.p t0 =>
    let t := pyStrip t0
    if isPre (lchars "原因") t then { f with reason := pyStrip (stripLabelColon (lchars "原因") t) }
    else if isPre (lchars "紧迫度") t then { f with urgency := pyStrip (stripLabelColon (lchars "紧迫度") t) }
    else if isPre (lchars "置信度") t then { f with confidence := pyStrip (stripLabelColon (lchars "置信度") t) }
    else if isPre (lchars "执行建议") t then { f with suggest := pyStrip (stripLabelColon (lchars "执行建议") t) }
    else f
  | _ => f

/-- Walk state of the priority scan: emitted cards plus the open candidate
item, if any. -/
structure PriWalkSt where
  cards : List RCard
  cur : Option PriFields

def closeCur : Option PriFields → List RCard
  | some f => [f.toCard]
  | none => []

/-- One step of the priority walk (lines 420-458) over the region between the
anchor and the next `h3`: a list node closes the open item and, when its
first entry starts with `标题`, opens a new one; any other node feeds the
open item's field extraction.  (The region never contains an `h3`.) -/
def priWalkStep (s : PriWalkSt) : Node → PriWalkSt
  | Node.ulist items =>
    let cards := s.cards ++ closeCur s.cur
    let t0 := match items with
              | i :: _ => pyStrip i
              | [] => []
    if isPre (lchars "标题") t0 then
      { cards := cards,
        cur := some { emptyPriFields with title := extractAfterLabel (lchars "标题") t0 } }
    else
      { cards := cards, cur := none }
  | n =>
    match s.cur with
    | some f => { s with cur := some (priWalkExtract f n) }
    | none => s

/-- Cards produced by the priority walk over a region. -/
def priWalkCards (region : List Node) : List RCard :=
  let s := region.foldl priWalkStep ⟨[], none⟩
  s.cards ++ closeCur s.cur

/-- Pass 4 (lines 414-463): from the first `h3` containing `优先级`, every
node up to the next `h3` is removed; when that region is non-empty it is
replaced by one section holding the walk's cards (possibly none). -/
def pass4 : List Node → List Node
  | [] => []
  | n :: rest =>
    if isPriH3 n then
      let region := rest.takeWhile (fun m => !isH3 m)
      let rest2 := rest.dropWhile (fun m => !isH3 m)
      if region = [] then n :: rest
      else n :: Node.cardSection (priWalkCards region) :: rest2
    else n :: pass4 rest

/-- `keys.find(k => new RegExp('^' + k).test(t))` (line 474). -/
def findRevKey (t : List Char) : Option (List Char) :=
  [lchars "趋势", lchars "情绪", lchars "风格"].find? (fun k => isPre k t)

/-- The market-review walk (lines 469-497): a paragraph starting with one of
the fixed keys opens a card titled by the key; its following sibling is
consumed as the card body when it is a list or a paragraph. -/
def revWalkCards : List Node → List RCard
  | Node.p t :: rest =>
    match findRevKey (pyStrip t) with
    | some key =>
      match rest with
      | Node.ulist items :: rest2 =>
        RCard.review key (some (ReviewBody.ulBody items)) :: revWalkCards rest2
      | Node.p t2 :: rest2 =>
        RCard.review key (some (ReviewBody.pBody (pyStrip t2))) :: revWalkCards rest2
      | other => RCard.review key none :: revWalkCards other
    | none => revWalkCards rest
  | _ :: rest => revWalkCards rest
  | [] => []

/-- Pass 5 (lines 464-502): same region structure as pass 4, anchored on the
first `h3` containing `大盘复盘`. -/
def pass5 : List Node → List Node
  | [] => []
  | n :: rest =>
    if isRevH3 n then
      let region := rest.takeWhile (fun m => !isH3 m)
      let rest2 := rest.dropWhile (fun m => !isH3 m)
      if region = [] then n :: rest
      else n :: Node.cardSection (revWalkCards region) :: rest2
    else n :: pass5 rest

/-- The whole card-ification script, passes in emission order. -/
def cardify (doc : List Node) : List Node :=
  pass5 (pass4 (pass3 (pass2 (pass1 doc))))

/-- The full renderer pipeline on input lines: parse, render, card-ify. -/
def processDoc (lines : List (List Char)) : List Node :=
  cardify (renderNodes (md_to_html_blocks lines))

/-! ## `call_deepseek` response handling (deepseek_client.py lines 88-92)

`data = resp.json()` is a parsed JSON value; the function then returns
`data["choices"][0]["message"]["content"].strip()`, falling back to
`json.dumps(data, ensure_ascii=False, indent=2)` when any step of that
access raises. -/

/-- A parsed JSON value (`resp.json()`). -/
inductive Json where
  | null
  | jbool (b : Bool)
  | jnum (n : Int)
  | jstr (s : List Char)
  | jarr (xs : List Json)
  | jobj (fields : List (List Char × Json))

/-- Dictionary lookup `d[key]`: the value of the last binding of `key`
(later duplicate keys overwrite in `json.loads`); `none` on a missing key or
a non-object, where Python raises `KeyError`/`TypeError` into the `except`. -/
def jGet (j : Json) (key : List Char) : Option Json :=
  match j with
  | Json.jobj fields => (fields.reverse.find? (fun kv => kv.fst == key)).map (·.snd)
  | _ => none

/-- `data["choices"][0]["message"]["content"]` where the final value must be
a string (anything else makes `.strip()` raise into the `except`). -/
def extractContent (data : Json) : Option (List Char) :=
  match jGet data (lchars "choices") with
  | some (Json.jarr (c0 :: _)) =>
    match jGet c0 (lchars "message") with
    | some m =>
      match jGet m (lchars "content") with
      | some (Json.jstr s) => some s
      | _ => none
    | none => none
  | _ => none

/-- String escaping of `json.dumps(..., ensure_ascii=False)`. -/
def escapeJsonChar (c : Char) : List Char :=
  if c = '"' then ['\\', '"']
  else if c = '\\' then ['\\', '\\']
  else if c = '\n' then ['\\', 'n']
  else if c = '\t' then ['\\', 't']
  else if c = '\r' then ['\\', 'r']
  else if c = '\x08' then ['\\', 'b']
  else if c = '\x0c' then ['\\', 'f']
  else if c.toNat < 32 then
    lchars "\\u00" ++ [(lchars "0123456789abcdef").getD (c.toNat / 16) '0',
                       (lchars "0123456789abcdef").getD (c.toNat % 16) '0']
  else [c]

def escapeJsonStr (s : List Char) : List Char :=
  '"' :: concatAll (s.map escapeJsonChar) ++ ['"']

def joinSep (sep : List Char) : List (List Char) → List Char
  | [] => []
  | [x] => x
  | x :: y :: rest => x ++ sep ++ joinSep sep (y :: rest)

mutual

/-- `json.dumps(data, ensure_ascii=False, indent=2)` at nesting depth `lvl`
(each element of a non-empty array/object on its own line, indented two more
spaces, the closing bracket on the opening indentation). -/
def dumpsAux : Json → Nat → List Char
  | Json.null, _ => lchars "null"
  | Json.jbool true, _ => lchars "true"
  | Json.jbool false, _ => lchars "false"
  | Json.jnum n, _ => lchars (toString n)
  | Json.jstr s, _ => escapeJsonStr s
  | Json.jarr [], _ => ['[', ']']
  | Json.jarr (x :: xs), lvl =>
    '[' :: '\n' :: joinSep (lchars ",\n")
        ((dumpsList (x :: xs) (lvl + 1)).map (List.replicate ((lvl + 1) * 2) ' ' ++ ·))
      ++ '\n' :: List.replicate (lvl * 2) ' ' ++ [']']
  | Json.jobj [], _ => ['\x7b', '\x7d']
  | Json.jobj (f :: fs), lvl =>
    '\x7b' :: '\n' :: joinSep (lchars ",\n")
        ((dumpsFields (f :: fs) (lvl + 1)).map (List.replicate ((lvl + 1) * 2) ' ' ++ ·))
      ++ '\n' :: List.replicate (lvl * 2) ' ' ++ ['\x7d']

def dumpsList : List Json → Nat → List (List Char)
  | [], _ => []
  | x :: xs, lvl => dumpsAux x lvl :: dumpsList xs lvl

def dumpsFields : List (List Char × Json) → Nat → List (List Char)
  | [], _ => []
  | (k, v) :: fs, lvl =>
    (escapeJsonStr k ++ lchars ": " ++ dumpsAux v lvl) :: dumpsFields fs lvl

end

/-- `json.dumps(data, ensure_ascii=False, indent=2)`. -/
def dumps (data : Json) : List Char := dumpsAux data 0

/-- The result computation of `call_deepseek` after a 200 response (lines
88-92): the stripped `choices[0].message.content` string when that shape is
present, otherwise the re-serialized endpoint JSON. -/
def call_deepseek_result (data : Json) : List Char :=
  match extractContent data with
  | some content => pyStrip content
  | none => dumps data

/-! ## Helper lemmas -/

lemma concatAll_append (a b : List (List α)) :
    concatAll (a ++ b) = concatAll a ++ concatAll b := by
  induction a with
  | nil => rfl
  | cons x xs ih => simp [concatAll, ih]

lemma blocksContent_append (a b : List Block) :
    blocksContent (a ++ b) = blocksContent a ++ blocksContent b := by
  simp [blocksContent, concatAll_append]

@[simp] lemma blocksContent_nil : blocksContent [] = [] := rfl

lemma blocksContent_single (bk : Block) : blocksContent [bk] = blockContent bk := by
  simp [blocksContent, concatAll]

@[simp] lemma flush_list_inList (st : PState) : (flush_list st).inList = false := by
  unfold flush_list; split <;> rfl

@[simp] lemma flush_list_listItems (st : PState) : (flush_list st).listItems = [] := by
  unfold flush_list; split <;> rfl

@[simp] lemma flush_list_inTable (st : PState) : (flush_list st).inTable = st.inTable := by
  unfold flush_list; split <;> rfl

@[simp] lemma flush_list_tableLines (st : PState) :
    (flush_list st).tableLines = st.tableLines := by
  unfold flush_list; split <;> rfl

@[simp] lemma flush_table_inTable (st : PState) : (flush_table st).inTable = false := by
  unfold flush_table; split <;> rfl

@[simp] lemma flush_table_tableLines (st : PState) : (flush_table st).tableLines = [] := by
  unfold flush_table; split <;> rfl

@[simp] lemma flush_table_inList (st : PState) : (flush_table st).inList = st.inList := by
  unfold flush_table; split <;> rfl

@[simp] lemma flush_table_listItems (st : PState) :
    (flush_table st).listItems = st.listItems := by
  unfold flush_table; split <;> rfl

lemma flush_list_content (st : PState) (h : st.listItems ≠ [] → st.inList = true) :
    blocksContent (flush_list st).out = blocksContent st.out ++ st.listItems := by
  unfold flush_list
  by_cases hli : st.listItems = []
  · rw [if_neg (fun hc => hc.2 hli)]; simp [hli]
  · rw [if_pos ⟨h hli, hli⟩]
    simp [blocksContent_append, blocksContent_single, blockContent]

lemma flush_table_content (st : PState) (h : st.tableLines ≠ [] → st.inTable = true) :
    blocksContent (flush_table st).out
      = blocksContent st.out ++ refFlush (st.tableLines.map cells) := by
  unfold flush_table
  by_cases htl : st.tableLines = []
  · rw [if_neg (fun hc => hc.2 htl)]; simp [htl, refFlush]
  · rw [if_pos ⟨h htl, htl⟩]
    obtain ⟨t, ts, hts⟩ : ∃ t ts, st.tableLines = t :: ts := by
      cases h' : st.tableLines with
      | nil => exact absurd h' htl
      | cons t ts => exact ⟨t, ts, rfl⟩
    rw [hts]
    simp only [blocksContent_append, blocksContent_single, blockContent, List.map_cons]
    cases ts with
    | nil => simp [refFlush, concatAll]
    | cons t1 ts1 =>
      simp only [List.map_cons, List.headD_cons, List.tail_cons, refFlush]
      by_cases hd : allDashRow (cells t1) = true <;> simp [hd]

/-- Reachable-state invariant of the parser loop: a non-empty buffer has its
flag set, and the two buffers are never simultaneously non-empty. -/
def WFState (st : PState) : Prop :=
  (st.listItems ≠ [] → st.inList = true) ∧
  (st.tableLines ≠ [] → st.inTable = true) ∧
  (st.listItems = [] ∨ st.tableLines = [])

lemma wf_initState : WFState initState := by
  refine ⟨?_, ?_, Or.inl rfl⟩ <;> simp [initState]

lemma isPre_head {a : Char} {p s : List Char} (h : isPre (a :: p) s = true) :
    ∃ t, s = a :: t := by
  cases s with
  | nil => simp [isPre] at h
  | cons b t =>
    simp only [isPre, Bool.and_eq_true, beq_iff_eq] at h
    exact ⟨t, by rw [h.1]⟩

lemma isPre_pipe_of_h3 {s : List Char} (h : isPre (lchars "### ") s = true) :
    isPre (lchars "|") s = false := by
  obtain ⟨t, rfl⟩ := isPre_head h
  simp [isPre, lchars]

lemma isPre_pipe_of_h4 {s : List Char} (h : isPre (lchars "#### ") s = true) :
    isPre (lchars "|") s = false := by
  obtain ⟨t, rfl⟩ := isPre_head h
  simp [isPre, lchars]

lemma isPre_h3_of_pipe {s : List Char} (h : isPre (lchars "|") s = true) :
    isPre (lchars "### ") s = false := by
  obtain ⟨t, rfl⟩ := isPre_head h
  simp [isPre, lchars]

lemma isPre_h4_of_pipe {s : List Char} (h : isPre (lchars "|") s = true) :
    isPre (lchars "#### ") s = false := by
  obtain ⟨t, rfl⟩ := isPre_head h
  simp [isPre, lchars]

lemma wf_step (st : PState) (l : List Char) (h : WFState st) : WFState (step st l) := by
  obtain ⟨h1, h2, h3⟩ := h
  unfold step stepCore
  by_cases c1 : isPre (lchars "### ") (pyStrip l) = true
  · simp only [c1, if_true]
    exact ⟨by simp, by simp, Or.inl (by simp)⟩
  by_cases c2 : isPre (lchars "#### ") (pyStrip l) = true
  · simp only [c1, c2, if_true, if_false]
    exact ⟨by simp, by simp, Or.inl (by simp)⟩
  by_cases c3 : isPre (lchars "|") (pyStrip l) = true
  · simp only [c1, c2, c3, if_true, if_false]
    exact ⟨by simp, by simp, Or.inl (by simp)⟩
  simp only [c1, c2, c3, if_false]
  have htl1 : (if st.inTable then flush_table st else st).tableLines = [] := by
    by_cases cT : st.inTable = true
    · simp [cT]
    · have htl : st.tableLines = [] := by
        by_contra hne; exact cT (h2 hne)
      simp [cT, htl]
  by_cases c4 : pyStrip l = lchars "---"
  · simp only [c4, if_true]
    exact ⟨by simp, by simp [htl1], Or.inl (by simp)⟩
  by_cases c5 : isPre (lchars "- ") (pyStrip l) = true
  · simp only [c4, c5, if_true, if_false]
    refine ⟨fun _ => rfl, fun hne => ?_, Or.inr (by simp [htl1])⟩
    exact absurd htl1 hne
  · simp only [c4, c5, if_false]
    by_cases c6 : pyStrip l ≠ []
    · rw [if_pos c6]
      exact ⟨by simp, by simp [htl1], Or.inl (by simp)⟩
    · rw [if_neg c6]
      exact ⟨by simp, by simp [htl1], Or.inl (by simp)⟩

@[simp] lemma refFlush_nil : refFlush [] = [] := rfl

@[simp] lemma refContentGo_nil (pend : List (List (List Char))) :
    refContentGo pend [] = refFlush pend := rfl

lemma refContentGo_cons (pend : List (List (List Char))) (l : List Char)
    (ls : List (List Char)) :
    refContentGo pend (l :: ls)
      = if isPre (lchars "|") (pyStrip l) = true then
          refContentGo (pend ++ [cells (pyStrip l)]) ls
        else
          refFlush pend ++ lineContent (pyStrip l) ++ refContentGo [] ls := rfl

/-- Content invariant of the parser loop: running the remaining lines from
any reachable state yields the state's emitted content, the pending list
items, then the reference content of the pending table run and the
remaining lines. -/
theorem content_key (ls : List (List Char)) :
    ∀ st : PState, WFState st →
      blocksContent (finishState (ls.foldl step st)).out
        = blocksContent st.out
            ++ (st.listItems ++ refContentGo (st.tableLines.map cells) ls) := by
  induction ls with
  | nil =>
    intro st h
    obtain ⟨h1, h2, _⟩ := h
    show blocksContent (flush_table (flush_list st)).out = _
    have hA : (flush_list st).tableLines ≠ [] → (flush_list st).inTable = true := by
      simpa using h2
    rw [flush_table_content _ hA, flush_list_content _ h1]
    simp [List.append_assoc]
  | cons l ls ih =>
    intro st h
    obtain ⟨h1, h2, h3⟩ := h
    have hfold : (l :: ls).foldl step st = ls.foldl step (step st l) := rfl
    rw [hfold, ih (step st l) (wf_step st l ⟨h1, h2, h3⟩), refContentGo_cons]
    have hA : (flush_list st).tableLines ≠ [] → (flush_list st).inTable = true := by
      simpa using h2
    by_cases c1 : isPre (lchars "### ") (pyStrip l) = true
    · have cp : isPre (lchars "|") (pyStrip l) = false := isPre_pipe_of_h3 c1
      rw [if_neg (by simp [cp])]
      simp only [step, stepCore, c1, if_true]
      simp only [blocksContent_append, blocksContent_single, blockContent,
        flush_table_listItems, flush_list_listItems, flush_table_tableLines,
        List.map_nil, refContentGo_nil, refFlush_nil]
      rw [flush_table_content _ hA, flush_list_content _ h1]
      simp only [flush_list_tableLines, lineContent, c1, if_true]
      simp [List.append_assoc]
    by_cases c2 : isPre (lchars "#### ") (pyStrip l) = true
    · have cp : isPre (lchars "|") (pyStrip l) = false := isPre_pipe_of_h4 c2
      rw [if_neg (by simp [cp])]
      simp only [step, stepCore, c1, c2, if_true, if_false, Bool.false_eq_true]
      simp only [blocksContent_append, blocksContent_single, blockContent,
        flush_table_listItems, flush_list_listItems, flush_table_tableLines,
        List.map_nil, refContentGo_nil, refFlush_nil]
      rw [flush_table_content _ hA, flush_list_content _ h1]
      simp only [flush_list_tableLines, lineContent, c1, c2, if_true, if_false,
        Bool.false_eq_true]
      simp [List.append_assoc]
    by_cases c3 : isPre (lchars "|") (pyStrip l) = true
    · rw [if_pos (by simp [c3])]
      simp only [step, stepCore, c1, c2, c3, if_true, if_false, Bool.false_eq_true]
      simp only [flush_list_listItems, flush_list_tableLines]
      rw [flush_list_content _ h1]
      simp [List.append_assoc]
    · -- the line is not a heading and not a table line
      rw [if_neg (by simp [c3])]
      simp only [step, stepCore, c1, c2, c3, if_true, if_false, Bool.false_eq_true]
      have hst1out : blocksContent (if st.inTable then flush_table st else st).out
          = blocksContent st.out ++ refFlush (st.tableLines.map cells) := by
        by_cases cT : st.inTable = true
        · rw [if_pos cT, flush_table_content _ h2]
        · have htl : st.tableLines = [] := by
            by_contra hne; exact cT (h2 hne)
          rw [if_neg cT]
          simp [htl]
      have hst1li : (if st.inTable then flush_table st else st).listItems
          = st.listItems := by
        by_cases cT : st.inTable = true <;> simp [cT]
      have hst1il : (if st.inTable then flush_table st else st).listItems ≠ []
          → (if st.inTable then flush_table st else st).inList = true := by
        by_cases cT : st.inTable = true
        · rw [if_pos cT]; simpa using h1
        · rw [if_neg cT]; exact h1
      have hst1tl : (if st.inTable then flush_table st else st).tableLines = [] := by
        by_cases cT : st.inTable = true
        · simp [cT]
        · have htl : st.tableLines = [] := by
            by_contra hne; exact cT (h2 hne)
          simp [cT, htl]
      have d1 : isPre (lchars "### ") (lchars "---") = false := by decide
      have d2 : isPre (lchars "#### ") (lchars "---") = false := by decide
      have d3 : isPre (lchars "|") (lchars "---") = false := by decide
      by_cases c4 : pyStrip l = lchars "---"
      · simp only [c4, if_true]
        simp only [blocksContent_append, blocksContent_single, blockContent,
          flush_list_listItems, flush_list_tableLines, hst1tl,
          List.map_nil, refContentGo_nil, refFlush_nil]
        rw [flush_list_content _ hst1il, hst1out, hst1li]
        simp only [lineContent, c1, c2, c3, c4, d1, d2, d3, if_true, if_false,
          Bool.false_eq_true]
        rcases h3 with hLi | hTl
        · simp [hLi, List.append_assoc]
        · simp [hTl, List.append_assoc]
      by_cases c5 : isPre (lchars "- ") (pyStrip l) = true
      · simp only [c4, c5, if_true, if_false]
        simp only [hst1li, hst1tl, List.map_nil, refContentGo_nil, refFlush_nil]
        rw [hst1out]
        simp only [lineContent, c1, c2, c3, c4, c5, if_true, if_false, Bool.false_eq_true]
        rcases h3 with hLi | hTl
        · simp [hLi, List.append_assoc]
        · simp [hTl, List.append_assoc]
      · simp only [c4, c5, if_false, Bool.false_eq_true]
        by_cases c6 : pyStrip l ≠ []
        · rw [if_pos c6]
          simp only [blocksContent_append, blocksContent_single, blockContent,
            flush_list_listItems, flush_list_tableLines, hst1tl,
            List.map_nil, refContentGo_nil, refFlush_nil]
          rw [flush_list_content _ hst1il, hst1out, hst1li]
          simp only [lineContent, c1, c2, c3, c4, c5, c6, if_true, if_false,
            Bool.false_eq_true]
          rcases h3 with hLi | hTl
          · simp [hLi, c6, List.append_assoc]
          · simp [hTl, c6, List.append_assoc]
        · rw [if_neg c6]
          simp only [flush_list_listItems, flush_list_tableLines, hst1tl,
            List.map_nil, refContentGo_nil, refFlush_nil]
          rw [flush_list_content _ hst1il, hst1out, hst1li]
          simp only [lineContent, c1, c2, c3, c4, c5, c6, if_true, if_false,
            Bool.false_eq_true]
          rcases h3 with hLi | hTl
          · simp [hLi, List.append_assoc]
          · simp [hTl, List.append_assoc]

/-! ## Output monotonicity of the parser loop -/

lemma flush_list_out_pre (st : PState) : st.out <+: (flush_list st).out := by
  unfold flush_list
  split
  · exact List.prefix_append _ _
  · exact List.prefix_rfl

lemma flush_table_out_pre (st : PState) : st.out <+: (flush_table st).out := by
  unfold flush_table
  split
  · exact List.prefix_append _ _
  · exact List.prefix_rfl

lemma ite_flush_table_out_pre (st : PState) :
    st.out <+: (if st.inTable then flush_table st else st).out := by
  split
  · exact flush_table_out_pre st
  · exact List.prefix_rfl

lemma step_out_pre (st : PState) (l : List Char) : st.out <+: (step st l).out := by
  unfold step stepCore
  split_ifs <;>
    first
    | exact ((flush_list_out_pre st).trans (flush_table_out_pre _)).trans
        (List.prefix_append _ _)
    | exact ((flush_table_out_pre st).trans (flush_list_out_pre _)).trans
        (List.prefix_append _ _)
    | exact (flush_list_out_pre st).trans (List.prefix_append _ _)
    | exact (flush_table_out_pre st).trans (flush_list_out_pre _)
    | exact flush_list_out_pre st
    | exact flush_table_out_pre st
    | exact List.prefix_rfl

lemma foldl_out_pre (ls : List (List Char)) :
    ∀ st : PState, st.out <+: (ls.foldl step st).out := by
  induction ls with
  | nil => intro st; exact List.prefix_rfl
  | cons l ls ih => intro st; exact (step_out_pre st l).trans (ih (step st l))

/-! ## Whitespace padding does not change a line's classification -/

lemma dropWhile_all_append {p : Char → Bool} (ws l : List Char)
    (h : ∀ c ∈ ws, p c = true) :
    (ws ++ l).dropWhile p = l.dropWhile p := by
  induction ws with
  | nil => rfl
  | cons a t ih =>
    rw [List.cons_append, List.dropWhile_cons, if_pos (h a (by simp))]
    exact ih (fun c hc => h c (by simp [hc]))

lemma dropWhile_all_nil {p : Char → Bool} (l : List Char) (h : ∀ c ∈ l, p c = true) :
    l.dropWhile p = [] := by
  have := dropWhile_all_append l [] h
  simpa using this

lemma dropWhile_nil_append {p : Char → Bool} :
    ∀ l1 l2 : List Char, l1.dropWhile p = [] →
      (l1 ++ l2).dropWhile p = l2.dropWhile p := by
  intro l1
  induction l1 with
  | nil => intro l2 _; rfl
  | cons a t ih =>
    intro l2 h
    rw [List.dropWhile_cons] at h
    by_cases hp : p a = true
    · rw [if_pos hp] at h
      rw [List.cons_append, List.dropWhile_cons, if_pos hp]
      exact ih l2 h
    · rw [if_neg hp] at h
      exact absurd h (by simp)

lemma dropWhile_ne_nil_append {p : Char → Bool} :
    ∀ l1 l2 : List Char, l1.dropWhile p ≠ [] →
      (l1 ++ l2).dropWhile p = l1.dropWhile p ++ l2 := by
  intro l1
  induction l1 with
  | nil => intro l2 h; exact absurd rfl h
  | cons a t ih =>
    intro l2 h
    rw [List.dropWhile_cons] at h
    by_cases hp : p a = true
    · rw [if_pos hp] at h
      rw [List.cons_append, List.dropWhile_cons, if_pos hp, List.dropWhile_cons,
        if_pos hp]
      exact ih l2 h
    · rw [List.cons_append, List.dropWhile_cons, if_neg hp, List.dropWhile_cons,
        if_neg hp, List.cons_append]

/-- Surrounding whitespace does not change the stripped form of a line. -/
lemma pyStrip_pad (raw ws1 ws2 : List Char)
    (h1 : ∀ c ∈ ws1, wsChar c = true) (h2 : ∀ c ∈ ws2, wsChar c = true) :
    pyStrip (ws1 ++ raw ++ ws2) = pyStrip raw := by
  unfold pyStrip
  rw [List.append_assoc, dropWhile_all_append _ _ h1]
  by_cases hd : raw.dropWhile wsChar = []
  · rw [dropWhile_nil_append _ _ hd, dropWhile_all_nil _ h2, hd]
  · rw [dropWhile_ne_nil_append _ _ hd, List.reverse_append,
      dropWhile_all_append _ _ (fun c hc => h2 c (List.mem_reverse.mp hc))]

/-! ## Aggregation of a run of table lines -/

lemma table_run_foldl (ls : List (List Char)) :
    ∀ st : PState, (∀ l ∈ ls, isPre (lchars "|") (pyStrip l) = true) →
      st.inList = false → st.listItems = [] →
      ls.foldl step st
        = ⟨st.out, false, [], st.inTable || !ls.isEmpty,
           st.tableLines ++ ls.map pyStrip⟩ := by
  induction ls with
  | nil =>
    intro st h hIL hLI
    obtain ⟨o, il, li, it, tl⟩ := st
    simp only at hIL hLI
    simp [hIL, hLI]
  | cons l ls ih =>
    intro st h hIL hLI
    have hl : isPre (lchars "|") (pyStrip l) = true := h l (by simp)
    have hstep : step st l = ⟨st.out, false, [], true, st.tableLines ++ [pyStrip l]⟩ := by
      unfold step stepCore
      rw [if_neg (by simp [isPre_h3_of_pipe hl]), if_neg (by simp [isPre_h4_of_pipe hl]),
        if_pos (by simp [hl])]
      unfold flush_list
      rw [if_neg (fun hc => by rw [hIL] at hc; exact absurd hc.1 (by simp))]
    rw [List.foldl_cons, hstep,
      ih ⟨st.out, false, [], true, st.tableLines ++ [pyStrip l]⟩
        (fun l' hl' => h l' (by simp [hl'])) rfl rfl]
    simp [List.append_assoc]

/-! ## Card-ification passes are the identity on anchor-free documents -/

theorem pass1_id : ∀ doc : List Node,
    (∀ t, Node.p t ∈ doc → pyStrip t ∉ priorityLabels) → pass1 doc = doc := by
  intro doc
  induction doc with
  | nil => intro _; rfl
  | cons n rest ih =>
    intro h
    have hrest : ∀ t, Node.p t ∈ rest → pyStrip t ∉ priorityLabels :=
      fun t ht => h t (List.mem_cons_of_mem _ ht)
    cases n
    case p t =>
      cases rest
      case nil => rfl
      case cons m rest2 =>
        cases m
        case ulist items =>
          rw [show pass1 (Node.p t :: Node.ulist items :: rest2)
              = if pyStrip t ∈ priorityLabels then
                  Node.card (mkPriCardFromItems items) :: pass1 rest2
                else Node.p t :: pass1 (Node.ulist items :: rest2) from rfl,
            if_neg (h t (by simp)), ih hrest]
        all_goals conv_lhs => whnf
        all_goals rw [ih hrest]
    all_goals conv_lhs => whnf
    all_goals rw [ih hrest]

theorem pass2_id : ∀ doc : List Node,
    (∀ t, Node.p t ∈ doc → pyStrip t ∉ sectionLabels) → pass2 doc = doc := by
  intro doc
  induction doc with
  | nil => intro _; rfl
  | cons n rest ih =>
    intro h
    have hrest : ∀ t, Node.p t ∈ rest → pyStrip t ∉ sectionLabels :=
      fun t ht => h t (List.mem_cons_of_mem _ ht)
    cases n
    case p t =>
      cases rest
      case nil => rfl
      case cons m rest2 =>
        cases m
        case ulist items =>
          rw [show pass2 (Node.p t :: Node.ulist items :: rest2)
              = if pyStrip t ∈ sectionLabels then
                  Node.card (RCard.sectCard (dropTrailingColon (pyStrip t)) items)
                    :: pass2 rest2
                else Node.p t :: pass2 (Node.ulist items :: rest2) from rfl,
            if_neg (h t (by simp)), ih hrest]
        all_goals conv_lhs => whnf
        all_goals rw [ih hrest]
    all_goals conv_lhs => whnf
    all_goals rw [ih hrest]

theorem pass3_id : ∀ doc : List Node,
    (∀ hd rows, Node.tbl hd rows ∉ doc) → pass3 doc = doc := by
  intro doc
  induction doc with
  | nil => intro _; rfl
  | cons n rest ih =>
    intro h
    have hrest : ∀ hd rows, Node.tbl hd rows ∉ rest :=
      fun hd rows ht => h hd rows (List.mem_cons_of_mem _ ht)
    cases n
    case tbl hd rows => exact absurd (List.mem_cons_self _ _) (h hd rows)
    all_goals conv_lhs => whnf
    all_goals rw [ih hrest]

theorem pass4_id : ∀ doc : List Node,
    (∀ n ∈ doc, isPriH3 n = false) → pass4 doc = doc := by
  intro doc
  induction doc with
  | nil => intro _; rfl
  | cons n rest ih =>
    intro h
    rw [show pass4 (n :: rest)
        = if isPriH3 n then
            (if rest.takeWhile (fun m => !isH3 m) = [] then n :: rest
             else n :: Node.cardSection (priWalkCards (rest.takeWhile (fun m => !isH3 m)))
                    :: rest.dropWhile (fun m => !isH3 m))
          else n :: pass4 rest from rfl,
      if_neg (by simp [h n (List.mem_cons_self _ _)]),
      ih (fun m hm => h m (List.mem_cons_of_mem _ hm))]

theorem pass5_id : ∀ doc : List Node,
    (∀ n ∈ doc, isRevH3 n = false) → pass5 doc = doc := by
  intro doc
  induction doc with
  | nil => intro _; rfl
  | cons n rest ih =>
    intro h
    rw [show pass5 (n :: rest)
        = if isRevH3 n then
            (if rest.takeWhile (fun m => !isH3 m) = [] then n :: rest
             else n :: Node.cardSection (revWalkCards (rest.takeWhile (fun m => !isH3 m)))
                    :: rest.dropWhile (fun m => !isH3 m))
          else n :: pass5 rest from rfl,
      if_neg (by simp [h n (List.mem_cons_self _ _)]),
      ih (fun m hm => h m (List.mem_cons_of_mem _ hm))]

/-! ## Claim theorems -/

/-- C1: the block parser is a total function (every `md_to_html_blocks`
application below is defined), and a non-blank line matching none of the
recognized patterns (level-3/4 heading, table row, `---` rule, `- ` list
marker) is always emitted as a paragraph block, wherever it occurs in the
input. -/
theorem c1_unrecognized_line_is_paragraph (pre post : List (List Char)) (raw : List Char)
    (n1 : isPre (lchars "### ") (pyStrip raw) = false)
    (n2 : isPre (lchars "#### ") (pyStrip raw) = false)
    (n3 : isPre (lchars "|") (pyStrip raw) = false)
    (n4 : pyStrip raw ≠ lchars "---")
    (n5 : isPre (lchars "- ") (pyStrip raw) = false)
    (n6 : pyStrip raw ≠ []) :
    Block.para (removeBold (pyStrip raw)) ∈ md_to_html_blocks (pre ++ raw :: post) := by
  unfold md_to_html_blocks
  rw [List.foldl_append]
  have hstep : Block.para (removeBold (pyStrip raw))
      ∈ (step (List.foldl step initState pre) raw).out := by
    unfold step stepCore
    rw [if_neg (by simp [n1]), if_neg (by simp [n2]), if_neg (by simp [n3]),
      if_neg n4, if_neg (by simp [n5]), if_pos n6]
    simp
  have h2 : Block.para (removeBold (pyStrip raw))
      ∈ (List.foldl step (step (List.foldl step initState pre) raw) post).out :=
    (foldl_out_pre post _).subset hstep
  exact ((flush_list_out_pre _).trans (flush_table_out_pre _)).subset h2

/-- Witness for C1 at a concrete unrecognized line. -/
theorem c1_witness :
    Block.para (removeBold (pyStrip (lchars "宏观情绪偏暖")))
      ∈ md_to_html_blocks ([] ++ lchars "宏观情绪偏暖" :: []) :=
  c1_unrecognized_line_is_paragraph [] [] (lchars "宏观情绪偏暖")
    (by decide) (by decide) (by decide) (by decide) (by decide) (by decide)

/-- C2 (amended): a blank line does flush the aggregation buffers — after
processing a line that strips to empty from any reachable parser state, both
buffers are closed and empty. -/
theorem c2_blank_line_flushes (st : PState) (raw : List Char)
    (hwf : WFState st) (hb : pyStrip raw = []) :
    (step st raw).inList = false ∧ (step st raw).listItems = []
      ∧ (step st raw).inTable = false ∧ (step st raw).tableLines = [] := by
  obtain ⟨h1, h2, _⟩ := hwf
  unfold step stepCore
  rw [hb]
  rw [if_neg (by decide), if_neg (by decide), if_neg (by decide), if_neg (by decide),
    if_neg (by decide), if_neg (by decide)]
  refine ⟨by simp, by simp, ?_, ?_⟩
  · by_cases cT : st.inTable = true <;> simp [cT]
  · by_cases cT : st.inTable = true
    · simp [cT]
    · have htl : st.tableLines = [] := by
        by_contra hne; exact cT (h2 hne)
      simp [cT, htl]

/-- Counterexample to C2 as stated: the sequence `- a`, blank, `- b` yields
two one-item list blocks, not one list block with both items. -/
theorem c2_counterexample :
    md_to_html_blocks [lchars "- a", [], lchars "- b"]
        = [Block.ulist [lchars "a"], Block.ulist [lchars "b"]]
      ∧ md_to_html_blocks [lchars "- a", [], lchars "- b"]
        ≠ [Block.ulist [lchars "a", lchars "b"]] :=
  ⟨by rfl, by decide⟩

/-- Witness for the amended C2 at a concrete state with an open list buffer
and a whitespace-only line. -/
theorem c2_witness :
    (step ⟨[], true, [lchars "a"], false, []⟩ (lchars "  ")).inList = false
      ∧ (step ⟨[], true, [lchars "a"], false, []⟩ (lchars "  ")).listItems = []
      ∧ (step ⟨[], true, [lchars "a"], false, []⟩ (lchars "  ")).inTable = false
      ∧ (step ⟨[], true, [lchars "a"], false, []⟩ (lchars "  ")).tableLines = [] :=
  c2_blank_line_flushes ⟨[], true, [lchars "a"], false, []⟩ (lchars "  ")
    ⟨fun _ => rfl, fun hne => absurd rfl hne, Or.inr rfl⟩ (by decide)

/-- C3: a run of table lines is aggregated into one table block whose header
is the first row, and whose body drops the second row exactly when every one
of its cells is empty or dash-only. -/
theorem c3_table_second_row (l0 l1 : List Char) (ls2 : List (List Char))
    (h : ∀ l ∈ l0 :: l1 :: ls2, isPre (lchars "|") (pyStrip l) = true) :
    md_to_html_blocks (l0 :: l1 :: ls2)
      = [Block.table (cells (pyStrip l0))
          (if allDashRow (cells (pyStrip l1)) = true
           then ls2.map (fun l => cells (pyStrip l))
           else cells (pyStrip l1) :: ls2.map (fun l => cells (pyStrip l)))] := by
  have hmap : ∀ ls : List (List Char),
      (ls.map pyStrip).map cells = ls.map (fun l => cells (pyStrip l)) := by
    intro ls; rw [List.map_map]; rfl
  have key : md_to_html_blocks (l0 :: l1 :: ls2)
      = [Block.table (cells (pyStrip l0))
          (if allDashRow (cells (pyStrip l1)) = true
           then (ls2.map pyStrip).map cells
           else cells (pyStrip l1) :: (ls2.map pyStrip).map cells)] := by
    unfold md_to_html_blocks
    rw [table_run_foldl _ initState h rfl rfl]
    rfl
  rw [key, hmap]

/-- Witness for C3 at a concrete table with a dash separator row. -/
theorem c3_witness :
    md_to_html_blocks [lchars "| h |", lchars "|---|", lchars "| b |"]
      = [Block.table (cells (pyStrip (lchars "| h |")))
          (if allDashRow (cells (pyStrip (lchars "|---|"))) = true
           then [lchars "| b |"].map (fun l => cells (pyStrip l))
           else cells (pyStrip (lchars "|---|"))
                  :: [lchars "| b |"].map (fun l => cells (pyStrip l)))] :=
  c3_table_second_row (lchars "| h |") (lchars "|---|") [lchars "| b |"] (by decide)

/-- C4 (amended): for every input, the concatenated text content of the
emitted blocks equals the per-line content of the non-blank lines in order,
where the stripped markup additionally includes the all-dash (or empty)
second row of each maximal run of table lines. -/
theorem c4_content_preserved (lines : List (List Char)) :
    blocksContent (md_to_html_blocks lines) = refContent lines := by
  unfold md_to_html_blocks refContent
  have h := content_key lines initState wf_initState
  simpa [initState] using h

/-- Counterexample to C4 as stated: the cells of a table's dash separator
row are part of the input's non-blank line content under the claim's
enumerated markup, but appear in no emitted block. -/
theorem c4_counterexample :
    blocksContent (md_to_html_blocks [lchars "| a |", lchars "|---|", lchars "| b |"])
        = [lchars "a", lchars "b"]
      ∧ lineContentsAll [lchars "| a |", lchars "|---|", lchars "| b |"]
        = [lchars "a", lchars "---", lchars "b"]
      ∧ blocksContent (md_to_html_blocks [lchars "| a |", lchars "|---|", lchars "| b |"])
        ≠ lineContentsAll [lchars "| a |", lchars "|---|", lchars "| b |"] :=
  ⟨by rfl, by rfl, by decide⟩

/-- C5: under the `### 优先级筛选` heading, a list opening with
`标题：降息预期升温` followed by the four field paragraphs yields exactly one
priority card titled `降息预期升温` with urgency `高` and confidence `80`,
and every consumed node is removed. -/
theorem c5_priority_scan :
    processDoc [lchars "### 优先级筛选", lchars "- 标题：降息预期升温",
        lchars "原因：联储鹰派表态缓和", lchars "紧迫度：高", lchars "置信度：80",
        lchars "执行建议：关注债市"]
      = [Node.h3 (lchars "优先级筛选"),
         Node.cardSection [RCard.pri (lchars "降息预期升温") (lchars "高") (lchars "80")
           (lchars "联储鹰派表态缓和") (lchars "关注债市")]] := by
  rfl

/-- C6: a paragraph exactly equal to one of the nine section labels,
immediately followed by a list, is replaced by one card titled by the label
without its trailing full-width colon, carrying the list's items unchanged. -/
theorem c6_thematic_section (lbl : List Char) (items : List (List Char))
    (hl : lbl ∈ sectionLabels) :
    (∀ rest, pass2 (Node.p lbl :: Node.ulist items :: rest)
        = Node.card (RCard.sectCard (dropTrailingColon lbl) items) :: pass2 rest)
    ∧ cardify [Node.p lbl, Node.ulist items]
        = [Node.card (RCard.sectCard (dropTrailingColon lbl) items)] := by
  simp only [sectionLabels, List.mem_cons, List.not_mem_nil, or_false] at hl
  rcases hl with rfl | rfl | rfl | rfl | rfl | rfl | rfl | rfl | rfl <;>
    exact ⟨fun rest => rfl, rfl⟩

/-- Witness for C6 at the `主要风险：` label with a two-item list. -/
theorem c6_witness :
    pass2 [Node.p (lchars "主要风险："), Node.ulist [lchars "风险一", lchars "风险二"],
        Node.hrule]
      = Node.card (RCard.sectCard (lchars "主要风险")
          [lchars "风险一", lchars "风险二"]) :: pass2 [Node.hrule]
    ∧ cardify [Node.p (lchars "主要风险："), Node.ulist [lchars "风险一", lchars "风险二"]]
      = [Node.card (RCard.sectCard (lchars "主要风险")
          [lchars "风险一", lchars "风险二"])] := by
  have h := c6_thematic_section (lchars "主要风险：") [lchars "风险一", lchars "风险二"]
    (by decide)
  exact ⟨h.1 [Node.hrule], h.2⟩

/-- C7: the event-table scan, on the table with header
`事件 | 日期 | 观点 | 影响 | 板块与标的 | 建议` and one body row, produces
exactly one row card with title, date and impact from columns 0, 1 and 3
(resolved through the header synonyms); with unrecognized headers every field
falls back to its fixed positional index; and only the first table of a
document is transformed. -/
theorem c7_event_table :
    processDoc [lchars "| 事件 | 日期 | 观点 | 影响 | 板块与标的 | 建议 |",
        lchars "| --- | --- | --- | --- | --- | --- |",
        lchars "| 美联储议息 | 11月 | 偏鸽 | 利好债市 | 券商 | 关注 |"]
      = [Node.cardSection [RCard.eventCard (lchars "美联储议息") (lchars "11月")
          (lchars "偏鸽") (lchars "利好债市") (lchars "券商") (lchars "关注")]]
    ∧ cardify [Node.tbl [lchars "甲", lchars "乙", lchars "丙", lchars "丁",
          lchars "戊", lchars "己"]
          [[lchars "a", lchars "b", lchars "c", lchars "d", lchars "e", lchars "f"]],
        Node.tbl [lchars "事件"] [[lchars "x"]]]
      = [Node.cardSection [RCard.eventCard (lchars "a") (lchars "b") (lchars "c")
          (lchars "d") (lchars "e") (lchars "f")],
         Node.tbl [lchars "事件"] [[lchars "x"]]] :=
  ⟨by rfl, by rfl⟩

/-- C8 (amended): card-ification is a no-op on a document in which no
anchors or labels remain (no labelled paragraphs, no table, no level-3
heading containing `优先级` or `大盘复盘`); an anchored priority or
market-review scan with no qualifying forward nodes, however, still removes
the region up to the next level-3 heading, replacing it with an empty
section. -/
theorem c8_noop_on_cardified (doc : List Node)
    (hp : ∀ t, Node.p t ∈ doc → pyStrip t ∉ priorityLabels ∧ pyStrip t ∉ sectionLabels)
    (htb : ∀ hd rows, Node.tbl hd rows ∉ doc)
    (hh : ∀ t, Node.h3 t ∈ doc → containsSub (lchars "优先级") t = false
        ∧ containsSub (lchars "大盘复盘") t = false) :
    cardify doc = doc := by
  have h4 : ∀ n ∈ doc, isPriH3 n = false := fun n hn =>
    match n, hn with
    | Node.h3 t, hn => (hh t hn).1
    | Node.h4 _, _ => rfl
    | Node.ulist _, _ => rfl
    | Node.tbl _ _, _ => rfl
    | Node.hrule, _ => rfl
    | Node.p _, _ => rfl
    | Node.card _, _ => rfl
    | Node.cardSection _, _ => rfl
  have h5 : ∀ n ∈ doc, isRevH3 n = false := fun n hn =>
    match n, hn with
    | Node.h3 t, hn => (hh t hn).2
    | Node.h4 _, _ => rfl
    | Node.ulist _, _ => rfl
    | Node.tbl _ _, _ => rfl
    | Node.hrule, _ => rfl
    | Node.p _, _ => rfl
    | Node.card _, _ => rfl
    | Node.cardSection _, _ => rfl
  unfold cardify
  rw [pass1_id doc (fun t ht => (hp t ht).1), pass2_id doc (fun t ht => (hp t ht).2),
    pass3_id doc htb, pass4_id doc h4, pass5_id doc h5]

/-- Witness for the amended C8 on a concrete anchor-free document. -/
theorem c8_witness :
    cardify [Node.hrule, Node.card (RCard.review (lchars "趋势") none)]
      = [Node.hrule, Node.card (RCard.review (lchars "趋势") none)] :=
  c8_noop_on_cardified [Node.hrule, Node.card (RCard.review (lchars "趋势") none)]
    (fun t ht => absurd ht (by simp))
    (fun hd rows ht => absurd ht (by simp))
    (fun t ht => absurd ht (by simp))

/-- Counterexample to C8 as stated: a priority heading whose following
region contains no qualifying list still has that region removed and
replaced by an empty section, so the surrounding nodes are not left
untouched. -/
theorem c8_counterexample :
    cardify [Node.h3 (lchars "优先级筛选"), Node.p (lchars "hello")]
        = [Node.h3 (lchars "优先级筛选"), Node.cardSection []]
      ∧ cardify [Node.h3 (lchars "优先级筛选"), Node.p (lchars "hello")]
        ≠ [Node.h3 (lchars "优先级筛选"), Node.p (lchars "hello")] :=
  ⟨by rfl, by decide⟩

/-- C9 (amended): after a 200 response, `call_deepseek` raises nothing: when
the `choices[0].message.content` shape is absent it returns the re-serialized
endpoint JSON, and when the shape is present it returns that content string
stripped of surrounding whitespace. -/
theorem c9_response_shape (data : Json) :
    (extractContent data = none → call_deepseek_result data = dumps data)
    ∧ (∀ s, extractContent data = some s → call_deepseek_result data = pyStrip s) := by
  constructor
  · intro h; unfold call_deepseek_result; rw [h]
  · intro s h; unfold call_deepseek_result; rw [h]

/-- Witness for the amended C9 on a shape-less error payload. -/
theorem c9_witness :
    call_deepseek_result (Json.jobj [(lchars "error", Json.jstr (lchars "bad"))])
      = dumps (Json.jobj [(lchars "error", Json.jstr (lchars "bad"))]) :=
  (c9_response_shape (Json.jobj [(lchars "error", Json.jstr (lchars "bad"))])).1 rfl

/-- Counterexample to C9 as stated: when the content string carries
surrounding whitespace, the returned value is the stripped content, not that
content string. -/
theorem c9_counterexample :
    extractContent (Json.jobj [(lchars "choices", Json.jarr [Json.jobj
        [(lchars "message", Json.jobj [(lchars "content",
          Json.jstr (lchars "  hi  "))])]])])
        = some (lchars "  hi  ")
      ∧ call_deepseek_result (Json.jobj [(lchars "choices", Json.jarr [Json.jobj
          [(lchars "message", Json.jobj [(lchars "content",
            Json.jstr (lchars "  hi  "))])]])])
        = lchars "hi"
      ∧ lchars "hi" ≠ lchars "  hi  " :=
  ⟨rfl, by rfl, by decide⟩

/-- C10: classification works on the whitespace-stripped form of each line —
padding a line with whitespace on either side leaves the parser transition
unchanged in every state. -/
theorem c10_classification_strip_invariant (st : PState) (raw ws1 ws2 : List Char)
    (h1 : ∀ c ∈ ws1, wsChar c = true) (h2 : ∀ c ∈ ws2, wsChar c = true) :
    step st (ws1 ++ raw ++ ws2) = step st raw := by
  unfold step
  rw [pyStrip_pad raw ws1 ws2 h1 h2]

/-- Witness for C10: an indented heading line classifies like the unindented
one. -/
theorem c10_witness :
    step initState (lchars "  " ++ lchars "### 标题" ++ lchars "\t")
      = step initState (lchars "### 标题") :=
  c10_classification_strip_invariant initState (lchars "### 标题")
    (lchars "  ") (lchars "\t") (by decide) (by decide)

end TrendRadar
